import Mathlib

/-!
Shallow embedding of `src/lib.rs` of the `lora-modem-hal` crate.

Modelling conventions:
- Rust `&str` / `String` values are modelled as `List Char`; all inputs used
  in concrete evaluations are ASCII, where char indices and Rust byte indices
  coincide.
- Bytes (`u8`) are `Fin 256`; `usize` is `Nat` with an explicit `< 2 ^ 64`
  overflow check where the source's parsing can overflow; `i16` values are
  `Int` with the explicit `-32768 ≤ v ≤ 32767` range check performed by
  Rust's `str::parse::<i16>`.
- A Rust panic (slice out of range, `unwrap` on `Err`) is modelled as an
  explicit `panic` outcome of the corresponding result type, distinct from a
  typed `Err` return.
- `f32` arithmetic in `set_channel` is modelled exactly over `ℚ`.
-/

namespace LoraModemHal

set_option maxRecDepth 8192

/-! ## Hex codec (`hexify` / `unhexify`, src/lib.rs lines 7-21) -/

/-- Lowercase hexadecimal digit character for a value `n < 16`,
as produced by Rust's `format!("\x7b:02x?\x7d", b)`. -/
def hexDigit (n : Nat) : Char :=
  if n < 10 then Char.ofNat (48 + n) else Char.ofNat (87 + n)

/-- The two lowercase hex characters `format!("\x7b:02x?\x7d", b)` emits for one byte. -/
def hexByte (b : Fin 256) : List Char :=
  [hexDigit (b.val / 16), hexDigit (b.val % 16)]

/-- `hexify` (src/lib.rs lines 7-13): concatenates the two-character lowercase
hex form of every byte of the buffer, in order, with no separators or prefix. -/
def hexify : List (Fin 256) → List Char
  | [] => []
  | b :: rest => hexByte b ++ hexify rest

/-- Value of one character as a base-16 digit, as accepted by
`u8::from_str_radix(_, 16)`: `0-9`, `a-f`, `A-F`. -/
def hexVal (c : Char) : Option Nat :=
  if '0' ≤ c ∧ c ≤ '9' then some (c.toNat - 48)
  else if 'a' ≤ c ∧ c ≤ 'f' then some (c.toNat - 87)
  else if 'A' ≤ c ∧ c ≤ 'F' then some (c.toNat - 55)
  else none

/-- Parse one two-character chunk as `u8::from_str_radix(chunk, 16)` does:
either two hex digits, or a leading `+` sign followed by one hex digit
(`from_str_radix` accepts an optional leading plus). Two hex digits can
never overflow a `u8`. -/
def parseChunk (c1 c2 : Char) : Option (Fin 256) :=
  if c1 = '+' then
    match hexVal c2 with
    | some v => some ⟨v % 256, Nat.mod_lt _ (by omega)⟩
    | none => none
  else
    match hexVal c1, hexVal c2 with
    | some h, some l => some ⟨(16 * h + l) % 256, Nat.mod_lt _ (by omega)⟩
    | _, _ => none

/-- Outcome of `unhexify`: a typed `Err` return (`ParseIntError`) is distinct
from a panic (the slice `&s[i..i + 2]` running past the end of the string). -/
inductive UnhexifyResult where
  | ok (bytes : List (Fin 256))
  | err
  | panic
deriving DecidableEq, Repr

/-- `unhexify` (src/lib.rs lines 16-21): walks the string two characters at a
time; `collect::<Result<_, _>>` short-circuits on the first chunk that fails
to parse, so the out-of-range slice at the final odd index is only reached
(and only panics) when every complete chunk before it parsed. -/
def unhexify : List Char → UnhexifyResult
  | [] => .ok []
  | [_] => .panic
  | c1 :: c2 :: rest =>
    match parseChunk c1 c2 with
    | none => .err
    | some b =>
      match unhexify rest with
      | .ok bs => .ok (b :: bs)
      | r => r

/-- Consecutive two-character chunks of a string; a trailing odd character
belongs to no chunk. -/
def chunkPairs : List Char → List (Char × Char)
  | [] => []
  | [_] => []
  | c1 :: c2 :: rest => (c1, c2) :: chunkPairs rest

/-- The lowercase hex alphabet emitted by `hexify`. -/
def isLowerHexDigit (c : Char) : Bool :=
  ('0' ≤ c ∧ c ≤ '9') ∨ ('a' ≤ c ∧ c ≤ 'f')

/-! ## Channel catalog (`LoRaChannels`, src/lib.rs lines 24-59) -/

/-- The `LoRaChannels` enum: one constructor per source variant,
in source order. -/
inductive LoRaChannels where
  | Ch01_868 | Ch02_868 | Ch03_868 | Ch04_868 | Ch05_868 | Ch06_868
  | Ch07_868 | Ch08_868 | Ch09_868 | Ch10_868 | Ch11_868 | Ch12_868
  | Ch13_868 | Ch14_868 | Ch15_868 | Ch16_868 | Ch17_868
  | Ch00_900 | Ch01_900 | Ch02_900 | Ch03_900 | Ch04_900 | Ch05_900
  | Ch06_900 | Ch07_900 | Ch08_900 | Ch09_900 | Ch10_900 | Ch11_900
  | Ch12_900
deriving DecidableEq, Fintype, Repr

/-- The explicit discriminant of each `LoRaChannels` variant
(frequency in hundredths of a megahertz), as assigned in the source. -/
def channelValue : LoRaChannels → Nat
  | .Ch01_868 => 86810
  | .Ch02_868 => 86830
  | .Ch03_868 => 86850
  | .Ch04_868 => 86710
  | .Ch05_868 => 86730
  | .Ch06_868 => 86750
  | .Ch07_868 => 86770
  | .Ch08_868 => 86790
  | .Ch09_868 => 86880
  | .Ch10_868 => 86520
  | .Ch11_868 => 86550
  | .Ch12_868 => 86580
  | .Ch13_868 => 86610
  | .Ch14_868 => 86640
  | .Ch15_868 => 86670
  | .Ch16_868 => 86700
  | .Ch17_868 => 86800
  | .Ch00_900 => 90308
  | .Ch01_900 => 90524
  | .Ch02_900 => 90740
  | .Ch03_900 => 90956
  | .Ch04_900 => 91172
  | .Ch05_900 => 91388
  | .Ch06_900 => 91604
  | .Ch07_900 => 91820
  | .Ch08_900 => 92036
  | .Ch09_900 => 92252
  | .Ch10_900 => 92468
  | .Ch11_900 => 92684
  | .Ch12_900 => 91500

/-- The EU 868 MHz variants, channels 1-17, in source order. -/
def euChannels : List LoRaChannels :=
  [.Ch01_868, .Ch02_868, .Ch03_868, .Ch04_868, .Ch05_868, .Ch06_868,
   .Ch07_868, .Ch08_868, .Ch09_868, .Ch10_868, .Ch11_868, .Ch12_868,
   .Ch13_868, .Ch14_868, .Ch15_868, .Ch16_868, .Ch17_868]

/-- The US 900 MHz variants, channels 0-12, in source order. -/
def usChannels : List LoRaChannels :=
  [.Ch00_900, .Ch01_900, .Ch02_900, .Ch03_900, .Ch04_900, .Ch05_900,
   .Ch06_900, .Ch07_900, .Ch08_900, .Ch09_900, .Ch10_900, .Ch11_900,
   .Ch12_900]

/-! ## Modem configuration presets (`ModemConfig`, src/lib.rs lines 109-136) -/

/-- The four `ModemConfig` presets, wire codes 0-3 in source order. -/
inductive ModemConfig where
  | MediumBw125Cr45Sf128Crc
  | FastShortBw500Cr45Sf128Crc
  | SlowLongBw3125Cr48Sf512Crc
  | SlowLongBw125Cr48Sf4096Crc
deriving DecidableEq, Repr

/-- `impl TryFrom<usize> for ModemConfig` (src/lib.rs lines 120-136).
The Rust input type `usize` is a machine natural, so the domain is `Nat`;
every value other than 0-3 returns the `&'static str` error the source uses. -/
def ModemConfig.try_from (value : Nat) : Except String ModemConfig :=
  if value = 0 then .ok .MediumBw125Cr45Sf128Crc
  else if value = 1 then .ok .FastShortBw500Cr45Sf128Crc
  else if value = 2 then .ok .SlowLongBw3125Cr48Sf512Crc
  else if value = 3 then .ok .SlowLongBw125Cr48Sf4096Crc
  else .error ("Unknown modem config code!")

/-! ## Field parsing primitives used by `RxPacket::try_from` -/

/-- Decimal digit value of a character, if any. -/
def digitVal (c : Char) : Option Nat :=
  if '0' ≤ c ∧ c ≤ '9' then some (c.toNat - 48) else none

/-- Accumulate a run of decimal digits; fails on any non-digit. -/
def parseDigitsGo (acc : Nat) : List Char → Option Nat
  | [] => some acc
  | c :: rest =>
    match digitVal c with
    | some d => parseDigitsGo (10 * acc + d) rest
    | none => none

/-- A non-empty all-digit numeral, as required after the optional sign by
Rust's integer `FromStr`. -/
def parseDigits : List Char → Option Nat
  | [] => none
  | l => parseDigitsGo 0 l

/-- `str::parse::<usize>`: optional leading `+`, then a non-empty run of
decimal digits; fails on overflow of the 64-bit machine word. -/
def parseUsize (s : List Char) : Option Nat :=
  let raw :=
    match s with
    | '+' :: rest => parseDigits rest
    | _ => parseDigits s
  match raw with
  | some v => if v < 2 ^ 64 then some v else none
  | none => none

/-- `str::parse::<i16>`: optional leading `+` or `-`, then a non-empty run of
decimal digits; fails when the value falls outside `-32768..=32767`. -/
def parseI16 (s : List Char) : Option Int :=
  match s with
  | '-' :: rest =>
    match parseDigits rest with
    | some v => if v ≤ 32768 then some (-(v : Int)) else none
    | none => none
  | '+' :: rest =>
    match parseDigits rest with
    | some v => if v ≤ 32767 then some (v : Int) else none
    | none => none
  | l =>
    match parseDigits l with
    | some v => if v ≤ 32767 then some (v : Int) else none
    | none => none

/-- Whitespace removed by `str::trim` (the ASCII cases; every concrete input
in this development is ASCII). -/
def isWs (c : Char) : Bool :=
  c = ' ' ∨ c = '\t' ∨ c = '\n' ∨ c = '\r'

/-- `str::trim`: strip leading and trailing whitespace. -/
def rustTrim (s : List Char) : List Char :=
  ((s.dropWhile isWs).reverse.dropWhile isWs).reverse

/-! ## Received-packet parser (`RxPacket::try_from`, src/lib.rs lines 71-105) -/

/-- `RxPacket` (src/lib.rs lines 63-70). -/
structure RxPacket where
  rssi : Int
  snr : Int
  data : List (Fin 256)
deriving DecidableEq, Repr

/-- The typed `Err` returns of `RxPacket::try_from`: the field-count error
("output from modem has unexpected length!") and the length-mismatch error
("payload length not matching actual payload!"). -/
inductive RxError where
  | unexpectedLength
  | lengthMismatch
deriving DecidableEq, Repr

/-- Outcome of `RxPacket::try_from`: success, a typed `Err` return, or a
panic (a slice out of range or an `unwrap` on `Err`). -/
inductive RxResult where
  | ok (p : RxPacket)
  | error (e : RxError)
  | panic
deriving DecidableEq, Repr

/-- The literal marker `"+RX "`. -/
def rxMarker : List Char := ['+', 'R', 'X', ' ']

/-- First step of `RxPacket::try_from` (src/lib.rs lines 75-79): the slice
`&item[0..4]` panics (`none`) when the line is shorter than 4 characters;
otherwise the `"+RX "` prefix is stripped if present and the line is used
as-is if not. -/
def rxStrip (item : List Char) : Option (List Char) :=
  if item.length < 4 then none
  else some (if item.take 4 = rxMarker then item.drop 4 else item)

/-- The comma-separated fields of the line after prefix stripping and
trimming (src/lib.rs line 80); `none` when the prefix step panics. -/
def rxFields (item : List Char) : Option (List (List Char)) :=
  (rxStrip item).map fun payload => (rustTrim payload).splitOn ','

/-- Steps 2-8 of `RxPacket::try_from` on the prefix-stripped line: field-count
check, then `parse().unwrap()` on the length, `unhexify(..).unwrap()` on the
payload, the length-mismatch check, and `parse().unwrap()` on rssi and snr.
Every `unwrap` on a failed parse is a panic; the source's early return on
`data.len() != len` appears here as the else branch of the equality test. -/
def rxParseBody (payload : List Char) : RxResult :=
  match (rustTrim payload).splitOn ',' with
  | [f0, f1, f2, f3] =>
    match parseUsize f0 with
    | none => .panic
    | some len =>
      match unhexify f1 with
      | .ok data =>
        if data.length = len then
          match parseI16 f2, parseI16 f3 with
          | some rssi, some snr => .ok ⟨rssi, snr, data⟩
          | _, _ => .panic
        else .error .lengthMismatch
      | _ => .panic
  | _ => .error .unexpectedLength

/-- `RxPacket::try_from` (src/lib.rs lines 74-104), assembled from the prefix
step and the field-parsing body. -/
def rxTryFrom (item : List Char) : RxResult :=
  match rxStrip item with
  | none => .panic
  | some payload => rxParseBody payload

/-! ## Device interface (`LoraModemDevice`, src/lib.rs lines 191-211) -/

/-- One call a `LoraModemDevice` default method can make on `self`; the only
default method, `set_channel`, makes `setFrequency` calls. `f32` values are
modelled exactly over `ℚ`. -/
inductive TraitCall where
  | setFrequency (freq : ℚ)
deriving DecidableEq, Repr

/-- The default method body of `set_channel` (src/lib.rs lines 195-198):
`let freq = (channel as i32) as f32 / 100.0; self.set_frequency(freq)`.
The body is embedded as the sequence of calls it performs on the underlying
device: exactly one `set_frequency` call with the derived frequency. -/
def set_channel (channel : LoRaChannels) : List TraitCall :=
  [.setFrequency ((channelValue channel : ℚ) / 100)]

/-! ## Helper lemmas for the hex codec -/

/-- The two hex digits `hexByte` emits for a byte parse back to that byte. -/
lemma parseChunk_hexByte (b : Fin 256) :
    parseChunk (hexDigit (b.val / 16)) (hexDigit (b.val % 16)) = some b := by
  revert b; decide

/-- Uppercasing the two digits of `hexByte` still parses back to the byte:
`u8::from_str_radix(_, 16)` accepts both letter cases. -/
lemma parseChunk_hexByte_upper (b : Fin 256) :
    parseChunk (hexDigit (b.val / 16)).toUpper (hexDigit (b.val % 16)).toUpper
      = some b := by
  revert b; decide

/-- Every digit `hexDigit` can emit for a value below 16 is lowercase hex. -/
lemma isLowerHexDigit_hexDigit {n : Nat} (h : n < 16) :
    isLowerHexDigit (hexDigit n) = true := by
  have : ∀ m : Fin 16, isLowerHexDigit (hexDigit m.val) = true := by decide
  exact this ⟨n, h⟩

/-! ## Claim theorems -/

/-- C1: for every byte sequence `b`, decoding the hex text produced by
encoding `b` returns exactly `b`: `unhexify (hexify b) = Ok b`. -/
theorem C1_unhexify_hexify_roundtrip (b : List (Fin 256)) :
    unhexify (hexify b) = .ok b := by
  induction b with
  | nil => rfl
  | cons x rest ih =>
    show unhexify (hexDigit (x.val / 16) :: hexDigit (x.val % 16) :: hexify rest)
      = .ok (x :: rest)
    simp only [unhexify, parseChunk_hexByte, ih]

/-- C8: hex encoding produces exactly two lowercase hexadecimal characters per
input byte, so the output length is exactly twice the input length, and the
empty input yields the empty text. -/
theorem C8_hexify_shape (buf : List (Fin 256)) :
    (hexify buf).length = 2 * buf.length ∧
    (hexify buf).all isLowerHexDigit = true ∧
    hexify ([] : List (Fin 256)) = ([] : List Char) := by
  refine ⟨?_, ?_, rfl⟩
  · induction buf with
    | nil => rfl
    | cons x rest ih =>
      simp only [hexify, hexByte, List.cons_append, List.nil_append,
        List.length_cons, ih]
      omega
  · induction buf with
    | nil => rfl
    | cons x rest ih =>
      simp only [hexify, hexByte, List.cons_append, List.nil_append,
        List.all_cons, ih,
        isLowerHexDigit_hexDigit (Nat.div_lt_of_lt_mul (by omega : x.val < 16 * 16)),
        isLowerHexDigit_hexDigit (Nat.mod_lt x.val (by omega : 0 < 16)),
        Bool.and_self, Bool.and_true]

/-- C10: hex decoding is case-insensitive even though encoding only emits
lowercase: decoding the uppercase form of `hexify b` also returns `b`. -/
theorem C10_unhexify_uppercase_roundtrip (b : List (Fin 256)) :
    unhexify ((hexify b).map Char.toUpper) = .ok b := by
  induction b with
  | nil => rfl
  | cons x rest ih =>
    show unhexify ((hexDigit (x.val / 16)).toUpper :: (hexDigit (x.val % 16)).toUpper
        :: (hexify rest).map Char.toUpper) = .ok (x :: rest)
    simp only [unhexify, parseChunk_hexByte_upper, ih]

/-- C5 counterexample: the channel catalog does not have 29 entries — the
enum has 17 EU-868 variants plus 13 US-900 variants, 30 in total. -/
theorem C5_counterexample : Fintype.card LoRaChannels ≠ 29 := by decide

/-- C5 (amended): the channel catalog is a closed set of exactly 30 entries,
EU 868 MHz channels 1-17 and US 900 MHz channels 0-12, each bound to a fixed
integer in hundredths of a megahertz, with EU868 channel 1 bound to 86810 and
US900 channel 0 bound to 90308. -/
theorem C5_catalog_closed :
    Fintype.card LoRaChannels = 30 ∧
    euChannels.length = 17 ∧ usChannels.length = 13 ∧
    (euChannels ++ usChannels).Nodup ∧
    (∀ c : LoRaChannels, c ∈ euChannels ++ usChannels) ∧
    channelValue .Ch01_868 = 86810 ∧ channelValue .Ch00_900 = 90308 :=
  ⟨rfl, rfl, rfl, by decide, by decide, rfl, rfl⟩

/-- C6: `set_channel c` performs exactly one `set_frequency` call, with the
channel's integer value divided by 100 (f32 arithmetic modelled exactly over
`ℚ`), and no other transport interaction; EU channel 1 yields 868.10 and US
channel 0 yields 903.08. -/
theorem C6_set_channel_delegates (ch : LoRaChannels) :
    set_channel ch = [.setFrequency ((channelValue ch : ℚ) / 100)] ∧
    (set_channel ch).length = 1 ∧
    set_channel .Ch01_868 = [.setFrequency (868.10 : ℚ)] ∧
    set_channel .Ch00_900 = [.setFrequency (903.08 : ℚ)] := by
  refine ⟨rfl, rfl, ?_, ?_⟩ <;>
  · simp only [set_channel, channelValue, List.cons.injEq, and_true,
      TraitCall.setFrequency.injEq]
    norm_num

/-- C7: `ModemConfig::try_from` is a total lookup: 0-3 return the four presets
in order, and every other (machine-natural) input returns the unknown-config
error. -/
theorem C7_from_code_total :
    ModemConfig.try_from 0 = .ok .MediumBw125Cr45Sf128Crc ∧
    ModemConfig.try_from 1 = .ok .FastShortBw500Cr45Sf128Crc ∧
    ModemConfig.try_from 2 = .ok .SlowLongBw3125Cr48Sf512Crc ∧
    ModemConfig.try_from 3 = .ok .SlowLongBw125Cr48Sf4096Crc ∧
    ∀ n : Nat, 3 < n →
      ModemConfig.try_from n = .error ("Unknown modem config code!") := by
  refine ⟨rfl, rfl, rfl, rfl, fun n h => ?_⟩
  unfold ModemConfig.try_from
  rw [if_neg (by omega), if_neg (by omega), if_neg (by omega), if_neg (by omega)]

/-- C7 witness: code 4 is rejected with the unknown-config error. -/
theorem C7_from_code_total_witness :
    ModemConfig.try_from 4 = .error ("Unknown modem config code!") :=
  C7_from_code_total.2.2.2.2 4 (by decide)

/-- C3 counterexample: on the odd-length input `"abc"` the decoder does not
return the typed error — the final one-character slice is out of range and
the function aborts. -/
theorem C3_counterexample :
    (['a', 'b', 'c'].length % 2 = 1) ∧ unhexify ['a', 'b', 'c'] = .panic :=
  ⟨rfl, rfl⟩

/-- C3 (amended): decoding returns the typed parse error exactly when some
complete two-character chunk fails `u8::from_str_radix(_, 16)` (two hex
digits, or a leading plus sign and one hex digit); when every complete chunk
parses, decoding succeeds on even-length input and panics — rather than
returning a typed error — on odd-length input. -/
theorem C3_unhexify_amended (s : List Char) :
    (unhexify s = .err ↔ ∃ p ∈ chunkPairs s, parseChunk p.1 p.2 = none) ∧
    ((∀ p ∈ chunkPairs s, (parseChunk p.1 p.2).isSome) →
      if s.length % 2 = 0 then ∃ bs, unhexify s = .ok bs
      else unhexify s = .panic) := by
  induction s using unhexify.induct with
  | case1 =>
    exact ⟨by simp [unhexify, chunkPairs], fun _ => ⟨[], rfl⟩⟩
  | case2 c =>
    refine ⟨by simp [unhexify, chunkPairs], fun _ => ?_⟩
    simp [unhexify]
  | case3 c1 c2 rest hnone =>
    constructor
    · exact ⟨fun _ => ⟨(c1, c2), by simp [chunkPairs], hnone⟩,
        fun _ => by simp [unhexify, hnone]⟩
    · intro hall
      have := hall (c1, c2) (by simp [chunkPairs])
      rw [hnone] at this
      simp at this
  | case4 c1 c2 rest b hsome bs hok ih =>
    have hu : unhexify (c1 :: c2 :: rest) = .ok (b :: bs) := by
      simp [unhexify, hsome, hok]
    have hnobad : ¬ ∃ p ∈ chunkPairs rest, parseChunk p.1 p.2 = none := by
      intro hbad
      have := ih.1.mpr hbad
      rw [hok] at this
      simp at this
    constructor
    · rw [hu]
      constructor
      · intro h; simp at h
      · rintro ⟨p, hp, hbad⟩
        rcases List.mem_cons.mp (by simpa [chunkPairs] using hp) with rfl | hp'
        · rw [hsome] at hbad; simp at hbad
        · exact absurd ⟨p, hp', hbad⟩ hnobad
    · intro hall
      have hlen2 : (c1 :: c2 :: rest).length % 2 = rest.length % 2 := by
        simp only [List.length_cons]; omega
      rw [hlen2]
      have hall' : ∀ p ∈ chunkPairs rest, (parseChunk p.1 p.2).isSome :=
        fun p hp => hall p (by simp [chunkPairs, hp])
      have h2 := ih.2 hall'
      by_cases he : rest.length % 2 = 0
      · rw [if_pos he]
        exact ⟨b :: bs, hu⟩
      · rw [if_neg he] at h2
        rw [hok] at h2
        simp at h2
  | case5 c1 c2 rest b hsome hnotok ih =>
    have hu : unhexify (c1 :: c2 :: rest) = unhexify rest := by
      cases h : unhexify rest with
      | ok bs => exact absurd h (hnotok bs)
      | err => simp [unhexify, hsome, h]
      | panic => simp [unhexify, hsome, h]
    constructor
    · rw [hu]
      constructor
      · intro h
        rcases ih.1.mp h with ⟨p, hp, hbad⟩
        exact ⟨p, by simp [chunkPairs, hp], hbad⟩
      · rintro ⟨p, hp, hbad⟩
        rcases List.mem_cons.mp (by simpa [chunkPairs] using hp) with rfl | hp'
        · rw [hsome] at hbad; simp at hbad
        · exact ih.1.mpr ⟨p, hp', hbad⟩
    · intro hall
      have hlen2 : (c1 :: c2 :: rest).length % 2 = rest.length % 2 := by
        simp only [List.length_cons]; omega
      rw [hlen2, hu]
      have hall' : ∀ p ∈ chunkPairs rest, (parseChunk p.1 p.2).isSome :=
        fun p hp => hall p (by simp [chunkPairs, hp])
      have h2 := ih.2 hall'
      by_cases he : rest.length % 2 = 0
      · rw [if_pos he] at h2 ⊢
        rcases h2 with ⟨bs, hbs⟩
        exact absurd hbs (hnotok bs)
      · rw [if_neg he] at h2 ⊢
        exact h2

/-- C3 witness: a concrete even-length all-hex input decodes successfully. -/
theorem C3_unhexify_amended_witness : ∃ bs, unhexify ("0f".toList) = .ok bs := by
  have h := (C3_unhexify_amended ("0f".toList)).2 (by decide)
  rw [if_pos (show ("0f".toList).length % 2 = 0 from rfl)] at h
  exact h

/-- C4 counterexample: on the 2-character line `"ab"` the first step of the
packet decoder is not well-defined — the slice `&item[0..4]` is out of range
and the function aborts. -/
theorem C4_counterexample :
    (['a', 'b'].length < 4) ∧ rxStrip ['a', 'b'] = none ∧
    rxTryFrom ['a', 'b'] = .panic :=
  ⟨by decide, rfl, rfl⟩

/-- C4 (amended): for every line of at least 4 characters the first step is
well-defined: the `"+RX "` prefix is stripped when present, the line is used
as-is otherwise, and parsing continues on that payload; lines shorter than 4
characters abort. -/
theorem C4_strip_amended (item : List Char) (h : 4 ≤ item.length) :
    rxStrip item = some (if item.take 4 = rxMarker then item.drop 4 else item) ∧
    rxTryFrom item
      = rxParseBody (if item.take 4 = rxMarker then item.drop 4 else item) := by
  have hne : ¬ item.length < 4 := by omega
  exact ⟨by simp [rxStrip, hne], by simp [rxTryFrom, rxStrip, hne]⟩

/-- C4 witness: a concrete prefixed line is stripped to its bare form. -/
theorem C4_strip_amended_witness :
    rxStrip ("+RX 1,ff,-3,8".toList) = some ("1,ff,-3,8".toList) := by
  have h := (C4_strip_amended ("+RX 1,ff,-3,8".toList) (by decide)).1
  rw [h]
  decide

/-- C2: contrary to the spec's propagation policy, `RxPacket::try_from`
aborts (calls `unwrap` on `Err`) instead of returning a typed failure, on a
non-numeric length field, on a payload that fails hex decoding, and on a
non-numeric or 16-bit-overflowing rssi or snr field. -/
theorem C2_field_parsing_aborts :
    rxTryFrom ("x,00,1,2".toList) = .panic ∧
    rxTryFrom ("2,zz,-1,2".toList) = .panic ∧
    rxTryFrom ("1,00,40000,7".toList) = .panic ∧
    rxTryFrom ("1,00,0,40000".toList) = .panic :=
  ⟨rfl, rfl, rfl, rfl⟩

/-- When the prefix step panics, so does the whole parse. -/
lemma rxTryFrom_eq_panic (item : List Char) (hs : rxStrip item = none) :
    rxTryFrom item = .panic := by
  unfold rxTryFrom
  rw [hs]

/-- When the prefix step yields a payload, the parse is the body on it. -/
lemma rxTryFrom_eq_body (item payload : List Char)
    (hs : rxStrip item = some payload) :
    rxTryFrom item = rxParseBody payload := by
  unfold rxTryFrom
  rw [hs]

/-- Anatomy of a successful body parse: the line splits into exactly four
fields, the first parses as the declared length, and the returned packet's
data has exactly that length. -/
lemma rxParseBody_ok (payload : List Char) (p : RxPacket)
    (h : rxParseBody payload = .ok p) :
    ∃ f0 f1 f2 f3 len, (rustTrim payload).splitOn ',' = [f0, f1, f2, f3] ∧
      parseUsize f0 = some len ∧ p.data.length = len := by
  unfold rxParseBody at h
  split at h
  next f0 f1 f2 f3 heq =>
    split at h
    next => simp at h
    next len hlen =>
      split at h
      next data hdata =>
        split at h
        next hdl =>
          split at h
          next rssi snr hr hsn =>
            refine ⟨f0, f1, f2, f3, len, heq, hlen, ?_⟩
            cases h
            simpa using hdl
          next => simp at h
        next => simp at h
      next => simp at h
  next => simp at h

/-- C9: every successfully returned packet's data length equals the length
field declared in the source line; and whenever the decoded payload length
disagrees with the parsed length, parsing fails with the length-mismatch
error instead of returning a packet. -/
theorem C9_length_invariant :
    (∀ (item : List Char) (p : RxPacket), rxTryFrom item = .ok p →
      ∃ f0 f1 f2 f3 len, rxFields item = some [f0, f1, f2, f3] ∧
        parseUsize f0 = some len ∧ p.data.length = len) ∧
    (∀ (item : List Char) (f0 f1 f2 f3 : List Char) (len : Nat)
        (data : List (Fin 256)),
      rxFields item = some [f0, f1, f2, f3] → parseUsize f0 = some len →
      unhexify f1 = .ok data → data.length ≠ len →
      rxTryFrom item = .error .lengthMismatch) := by
  constructor
  · intro item p h
    cases hs : rxStrip item with
    | none =>
      rw [rxTryFrom_eq_panic item hs] at h
      simp at h
    | some payload =>
      rw [rxTryFrom_eq_body item payload hs] at h
      obtain ⟨f0, f1, f2, f3, len, hsplit, hlen, hplen⟩ := rxParseBody_ok payload p h
      refine ⟨f0, f1, f2, f3, len, ?_, hlen, hplen⟩
      unfold rxFields
      rw [hs]
      simp [hsplit]
  · intro item f0 f1 f2 f3 len data hf hlen hdata hne
    unfold rxFields at hf
    rcases Option.map_eq_some'.mp hf with ⟨payload, hs, hg⟩
    rw [rxTryFrom_eq_body item payload hs]
    unfold rxParseBody
    simp only [hg, hlen, hdata]
    rw [if_neg hne]

/-- C9 witness: a concrete matching line parses to a packet whose data length
equals the declared length, and a concrete mismatching line fails with the
length-mismatch error. -/
theorem C9_length_invariant_witness :
    (∃ f0 f1 f2 f3 len, rxFields ("2,abcd,1,2".toList) = some [f0, f1, f2, f3] ∧
      parseUsize f0 = some len ∧
      (RxPacket.mk 1 2 [171, 205]).data.length = len) ∧
    rxTryFrom ("5,abcd,1,2".toList) = .error .lengthMismatch := by
  constructor
  · exact C9_length_invariant.1 ("2,abcd,1,2".toList) (RxPacket.mk 1 2 [171, 205]) rfl
  · exact C9_length_invariant.2 ("5,abcd,1,2".toList) ("5".toList) ("abcd".toList)
      ("1".toList) ("2".toList) 5 [171, 205] rfl rfl rfl (by decide)

end LoraModemHal
